import Mathlib

/-!
# Verification of the `light_orm` record-access layer

Shallow embedding of `src/light_orm/light_orm.py`.  The pure query-building
helpers (`comp`, the WHERE/parameter construction, `get_table_id`) are
translated directly as functions on strings and association lists.  The
stateful record accessors (`get_pk`, `get_or_make_pk`, `save_rec`, ...) are
translated as functions over an explicit in-memory store: the underlying SQL
engine (sqlite) is an external collaborator of the code, so executing the
generated `select`/`insert`/`update` statements is modelled by their
relational semantics on that store (filtering rows by the filter mapping,
appending a row with auto-assigned integer primary key, updating rows keyed
on the identity value), and driver errors (unknown table, unknown column,
SQL syntax errors) are modelled as `Except.error`.  Python dictionaries are
modelled as association lists in insertion order, `None` as `Value.none`.
-/

/-- A scalar value as stored by the layer: SQL NULL (Python `None`),
integers, or text.  (The demo schema also has `real` columns; no claim
depends on real arithmetic, which is kept out of the model.) -/
inductive Value where
  | none : Value
  | int : Int → Value
  | text : String → Value
deriving DecidableEq, Repr

/-- Python truthiness of a scalar, used by `if res:` tests in the source:
`None`, `0` and `""` are falsy. -/
def Value.truthy : Value → Bool
  | Value.none => false
  | Value.int n => decide (n ≠ 0)
  | Value.text s => decide (s ≠ "")

/-- A Python dict in insertion order: field name to value.  Used both for
filters (`ident`) and for materialized records. -/
abbrev Fields := List (String × Value)

abbrev Row := Fields

/-- One table of the store: its name, its ordered column list (the first
column is the `integer primary key`, per the source's own assumption, see
the `do_query` error message), and its rows in rowid order.  Every row of a
well-formed table has exactly the columns of the table, in order. -/
structure Table where
  name : String
  cols : List String
  rows : List Row
deriving DecidableEq, Repr

/-- The store: the tables of one database. -/
abbrev Db := List Table

def findTable (db : Db) (table : String) : Option Table :=
  db.find? (fun t => t.name == table)

def replaceTable (db : Db) (table : String) (tbl : Table) : Db :=
  db.map (fun t => if t.name == table then tbl else t)

/-- `get_table_id` (light_orm.py:135-143): probes `select * from {table}
limit 0` and inspects the column descriptors — i.e. the table's column
list — returning `"id"` if a column of that name exists, else the table's
name. -/
def get_table_id (t : Table) : String :=
  if t.cols.any (fun c => c == "id") then "id" else t.name

/-- `comp` (light_orm.py:146-150): one WHERE clause, using `is null` when
the filter value is `None`. -/
def comp (k : String) (v : Value) : String :=
  if v = Value.none then k ++ " is null" else k ++ "=?"

/-- Python's `" and ".join`. -/
def join_and : List String → String
  | [] => ""
  | [s] => s
  | s :: rest => s ++ " and " ++ join_and rest

/-- The WHERE text built by `get_pk` (light_orm.py:159-165): empty filter
gives no WHERE clause, otherwise the `comp` clauses joined with `and`. -/
def build_where (ident : Fields) : String :=
  if ident.isEmpty then ""
  else " where " ++ join_and (ident.map (fun kv => comp kv.1 kv.2))

/-- The bound-parameter list built by `get_pk` (light_orm.py:162):
`[i for i in ident.values() if i is not None]`. -/
def build_vals (ident : Fields) : List Value :=
  (ident.map Prod.snd).filter (fun v => decide (v ≠ Value.none))

/-- A row satisfies a filter: each `(k, v)` pair of the filter requires the
row's `k` field to equal `v`.  This is the relational meaning of the WHERE
text built from `comp`: `k is null` matches a stored NULL, `k=?` with the
bound non-null value matches by SQL equality (a stored NULL never equals a
non-null value). -/
def row_matches (r : Row) (ident : Fields) : Bool :=
  ident.all (fun kv => r.lookup kv.1 == some kv.2)

/-- The rows of `tbl` matched by the filter, in rowid order: the result set
of the `select ... {where}` issued by `get_pk`. -/
def matching (tbl : Table) (ident : Fields) : List Row :=
  tbl.rows.filter (fun r => row_matches r ident)

/-- Result of `get_pk`: `None`, a single identity value, a single record,
or (with `multi`) a list of identity values or of records. -/
inductive PkResult where
  | none : PkResult
  | val : Value → PkResult
  | record : Row → PkResult
  | vals : List Value → PkResult
  | records : List Row → PkResult
deriving DecidableEq, Repr

/-- Python truthiness of a `get_pk` result (`if res:` in
`get_or_make_pk`): `None` and empty collections are falsy, a value by
`Value.truthy`. -/
def PkResult.truthy : PkResult → Bool
  | PkResult.none => false
  | PkResult.val v => v.truthy
  | PkResult.record r => !r.isEmpty
  | PkResult.vals l => !l.isEmpty
  | PkResult.records l => !l.isEmpty

/-- The identity value of a result row: `res[i][table_id]`. -/
def rowPk (table_id : String) (r : Row) : Value :=
  (r.lookup table_id).getD Value.none

/-- `get_pk` (light_orm.py:153-186).  The identity column is resolved from
the table (the `__table_id` cache is modelled separately, see
`resolve_table_id`; the cached value always equals `get_table_id` since the
schema is static).  Executing the built `select {table_id} from {table}
{where}` (or its `select *` variant when `return_obj`) is modelled
relationally: the driver rejects the statement when the selected identity
column or a filter field is not a column of the table; otherwise the result
set is the matching rows.  More than one result without `multi` raises;
otherwise zero rows give `None`, and the result row(s) are returned as
values or records. -/
def get_pk (db : Db) (table : String) (ident : Fields)
    (return_obj : Bool := false) (multi : Bool := false) :
    Except String PkResult :=
  match findTable db table with
  | Option.none => Except.error ("no such table: " ++ table)
  | some tbl =>
    let table_id := get_table_id tbl
    if tbl.cols.contains table_id
        && ident.all (fun kv => tbl.cols.contains kv.1) then
      let res := matching tbl ident
      if 1 < res.length && !multi then
        Except.error ("More than on result for " ++ table)
      else
        match res with
        | [] => Except.ok PkResult.none
        | r :: rs =>
          if multi then
            if return_obj then Except.ok (PkResult.records (r :: rs))
            else Except.ok (PkResult.vals ((r :: rs).map (rowPk table_id)))
          else
            if return_obj then Except.ok (PkResult.record r)
            else Except.ok (PkResult.val (rowPk table_id r))
    else Except.error "no such column in query"

/-- `get_rec` (light_orm.py:189-190). -/
def get_rec (db : Db) (table : String) (ident : Fields)
    (multi : Bool := false) : Except String PkResult :=
  get_pk db table ident true multi

/-- `get_pks` (light_orm.py:212-215): missing filter becomes `{}`. -/
def get_pks (db : Db) (table : String) (ident : Option Fields := Option.none)
    (return_obj : Bool := false) : Except String PkResult :=
  get_pk db table (ident.getD []) return_obj true

/-- `get_recs` (light_orm.py:222-225). -/
def get_recs (db : Db) (table : String)
    (ident : Option Fields := Option.none) : Except String PkResult :=
  get_rec db table (ident.getD []) true

deriving instance DecidableEq for Except

/-- Python `d[k] = v` on a dict modelled as an association list: replace the
value in place when the key exists (keeping its position), else append. -/
def dict_set (d : Fields) (k : String) (v : Value) : Fields :=
  if d.any (fun kv => kv.1 == k) then
    d.map (fun kv => if kv.1 == k then (k, v) else kv)
  else d ++ [(k, v)]

/-- Python `d.update(e)`: set each pair of `e` into `d` in order. -/
def py_update (d e : Fields) : Fields :=
  e.foldl (fun acc kv => dict_set acc kv.1 kv.2) d

/-- The row produced by `insert into {table} ({fields}) values (...)` with
the given field/value pairs: every column of the table, where a column not
named by `fields` is NULL — except the first column, the
`integer primary key`, which sqlite auto-assigns (also when explicitly
given NULL) as max rowid + 1 = row count + 1 (no deletions in this
layer). -/
def insert_row_values (tbl : Table) (fields : Fields) : Row :=
  tbl.cols.map (fun c =>
    (c, match fields.lookup c with
        | some v =>
          if tbl.cols.head? == some c && v == Value.none then
            Value.int (tbl.rows.length + 1)
          else v
        | Option.none =>
          if tbl.cols.head? == some c then Value.int (tbl.rows.length + 1)
          else Value.none))

/-- Executing the `insert` statement built by `get_or_make_pk`
(light_orm.py:200-208): the driver rejects an unknown table, an empty
column list (SQL syntax error) or an unknown column; otherwise the new row
is appended. -/
def do_insert (db : Db) (table : String) (fields : Fields) :
    Except String Db :=
  match findTable db table with
  | Option.none => Except.error ("no such table: " ++ table)
  | some tbl =>
    if fields.isEmpty then Except.error "syntax error in insert"
    else if fields.all (fun kv => tbl.cols.contains kv.1) then
      Except.ok (replaceTable db table
        { tbl with rows := tbl.rows ++ [insert_row_values tbl fields] })
    else Except.error "no such column in insert"

/-- `get_or_make_pk` (light_orm.py:193-209): look up by `ident`; a truthy
result is returned with `created = false` and the store untouched.
Otherwise merge `defaults` under `ident` (`defaults.copy()` then
`.update(ident)`, so `ident` wins), insert a row with exactly the merged
columns, and re-resolve the identity by a fresh `get_pk` on the merged
field set, returning `created = true`.  The store is threaded explicitly:
the result carries the store after the call. -/
def get_or_make_pk (db : Db) (table : String) (ident : Fields)
    (defaults : Fields := []) (return_obj : Bool := false) :
    Except String (PkResult × Bool × Db) :=
  match get_pk db table ident return_obj false with
  | Except.error e => Except.error e
  | Except.ok res =>
    if res.truthy then Except.ok (res, false, db)
    else
      let merged := py_update defaults ident
      match do_insert db table merged with
      | Except.error e => Except.error e
      | Except.ok db2 =>
        match get_pk db2 table merged return_obj false with
        | Except.error e => Except.error e
        | Except.ok res2 => Except.ok (res2, true, db2)

/-- `get_or_make_rec` (light_orm.py:218-219). -/
def get_or_make_rec (db : Db) (table : String) (ident : Fields)
    (defaults : Fields := []) : Except String (PkResult × Bool × Db) :=
  get_or_make_pk db table ident defaults true

/-- The effect of one `set c=?, ...` list on a row: each column named in
`vals` takes its new value, every other field is untouched. -/
def apply_set (r : Row) (vals : Fields) : Row :=
  r.map (fun cv =>
    match vals.lookup cv.1 with
    | some v => (cv.1, v)
    | Option.none => cv)

/-- `save_rec` (light_orm.py:228-248): with no `table` argument the first
key of the record names both the table and its identity column (legacy
convention), otherwise the identity column is `"id"`.  Builds
`update {table} set {values} where {table_id} = {pk}` over every field
except the identity field.  `pk` is textually interpolated into the SQL, so
a non-integer identity value does not produce a valid statement and the
driver rejects it; likewise an unknown table or column, an empty `set`
list, or a record without the identity key (message simplified).  The
update rewrites every row whose identity column equals `pk`. -/
def save_rec (db : Db) (rec : Row) (table : Option String := Option.none) :
    Except String Db :=
  match (match table with
         | some t => some (t, "id")
         | Option.none =>
           match rec with
           | [] => Option.none
           | kv :: _ => some (kv.1, kv.1)) with
  | Option.none => Except.error "IndexError: empty record"
  | some (t, table_id) =>
    match rec.lookup table_id with
    | Option.none => Except.error "KeyError: identity field missing"
    | some pk =>
      match pk with
      | Value.int _ =>
        let vals := rec.filter (fun kv => kv.1 != table_id)
        match findTable db t with
        | Option.none => Except.error ("no such table: " ++ t)
        | some tbl =>
          if vals.isEmpty then Except.error "syntax error in update"
          else if vals.all (fun kv => tbl.cols.contains kv.1)
              && tbl.cols.contains table_id then
            Except.ok (replaceTable db t
              { tbl with rows := tbl.rows.map (fun r =>
                  if r.lookup table_id == some pk then apply_set r vals
                  else r) })
          else Except.error "no such column in update"
      | _ => Except.error "invalid interpolated pk in update"

/-- The `__table_id` mutable-default cache of `get_pk`
(light_orm.py:153-157): process-wide map from table name to resolved
identity-column name. -/
abbrev IdCache := List (String × String)

/-- `get_pk`'s identity resolution step (light_orm.py:155-157): consult the
cache; on a miss, issue the zero-row probe (`get_table_id`) and cache its
result.  Returns the resolved name, the cache afterwards, and how many
probe queries were issued (0 or 1). -/
def resolve_table_id (db : Db) (cache : IdCache) (table : String) :
    Except String (String × IdCache × Nat) :=
  match cache.lookup table with
  | some tid => Except.ok (tid, cache, 0)
  | Option.none =>
    match findTable db table with
    | Option.none => Except.error ("no such table: " ++ table)
    | some tbl => Except.ok (get_table_id tbl, (table, get_table_id tbl) :: cache, 1)

/-- Python `str.lower` restricted to what the queries contain (ASCII). -/
def py_lower (s : String) : String := String.mk (s.data.map Char.toLower)

def is_space_char (c : Char) : Bool :=
  c == ' ' || c == '\t' || c == '\n' || c == '\r' || c == '\x0b' || c == '\x0c'

/-- Python `str.strip`: drop whitespace from both ends. -/
def py_strip (s : String) : String :=
  String.mk (((s.data.dropWhile is_space_char).reverse.dropWhile is_space_char).reverse)

def chars_start_with : List Char → List Char → Bool
  | [], _ => true
  | _ :: _, [] => false
  | c :: cs, d :: ds => c == d && chars_start_with cs ds

/-- `q.lower().strip().startswith("select")` (light_orm.py:93). -/
def is_select (q : String) : Bool :=
  chars_start_with "select".data (py_strip (py_lower q)).data

/-- The state of the driver cursor right after `cur.execute`: the rows it
will fetch and the column descriptors (names), `Option.none` when the
driver reports no description.  The driver is the external collaborator;
`do_query` consumes this state. -/
structure Cursor where
  rows : List (List Value)
  description : Option (List String)
deriving DecidableEq, Repr

/-- `do_query` (light_orm.py:92-124) after the execute step: non-select
statements return nothing; a select whose cursor has rows but no column
descriptors fails loudly (message as in the source, punctuation
simplified); otherwise each row is zipped with the descriptor names into a
field mapping. -/
def do_query_c (cur : Cursor) (q : String) :
    Except String (Option (List Row)) :=
  if !(is_select q) then Except.ok Option.none
  else if !cur.rows.isEmpty && cur.description == Option.none then
    Except.error "Error: table defined without first field integer primary key?"
  else
    Except.ok (some (cur.rows.map (fun r => (cur.description.getD []).zip r)))

/-- `do_one` (light_orm.py:127-132): requires the select to produce exactly
one record; zero rows, several rows, or a non-select all raise an error
naming the offending query text (source message quotes `q`; quotes
dropped). -/
def do_one_c (cur : Cursor) (q : String) : Except String Row :=
  match do_query_c cur q with
  | Except.error e => Except.error e
  | Except.ok ans =>
    match ans with
    | Option.none =>
      Except.error (q ++ " did not produce a single record response")
    | some rows =>
      match rows with
      | [r] => Except.ok r
      | _ => Except.error (q ++ " did not produce a single record response")

/-- One observable action of `get_con_cur_sqlite` against the driver and
filesystem. -/
inductive Ev where
  | connect : Bool → Ev
  | exec : String → Ev
  | commitEv : Ev
deriving DecidableEq, Repr

/-- `get_con_cur_sqlite` (light_orm.py:67-89): `existed` is
`os.path.exists(filepath)` at entry.  A nonexistent target with
`read_only` raises before anything else (source message uses quotes around
the path; simplified).  Otherwise the store is opened (read-only URI mode
or plain; a plain open creates the file), and only when the target did not
exist is every schema statement executed in order followed by one commit.
Returns the trace of driver actions and whether the file exists
afterwards. -/
def get_con_cur_sqlite (existed : Bool) (filepath : String)
    (schema : List String) (read_only : Bool) :
    List Ev × Except String Bool :=
  if !existed && read_only then
    ([], Except.error (filepath ++ " does not exist and requested read-only"))
  else
    ([Ev.connect read_only]
      ++ (if !existed then schema.map Ev.exec ++ [Ev.commitEv] else []),
     Except.ok true)

/-- Number of `?` placeholders in a piece of SQL text. -/
def count_q (s : String) : Nat := s.data.count ('?' : Char)

/-- Is a trace event a schema-statement execution? -/
def is_exec_ev : Ev → Bool
  | Ev.exec _ => true
  | _ => false

/-! ## Helper lemmas about association-list lookup -/

theorem lookup_append {α : Type} (k : String) (l₁ l₂ : List (String × α)) :
    (l₁ ++ l₂).lookup k
      = match l₁.lookup k with
        | some v => some v
        | Option.none => l₂.lookup k := by
  induction l₁ with
  | nil => simp [List.lookup]
  | cons kv rest ih =>
    by_cases h : k == kv.1
    · simp [List.lookup, h]
    · simp only [List.cons_append, List.lookup, h]
      exact ih

theorem lookup_eq_none_of_not_mem {α : Type} {k : String}
    {l : List (String × α)} (h : k ∉ l.map Prod.fst) :
    l.lookup k = Option.none := by
  induction l with
  | nil => simp [List.lookup]
  | cons kv rest ih =>
    simp only [List.map_cons, List.mem_cons, not_or] at h
    simp only [List.lookup, beq_eq_false_iff_ne.mpr h.1]
    exact ih h.2

theorem lookup_some_mem {α : Type} {k : String} {v : α}
    {l : List (String × α)} (h : l.lookup k = some v) : (k, v) ∈ l := by
  induction l with
  | nil => simp [List.lookup] at h
  | cons kv rest ih =>
    obtain ⟨k1, v1⟩ := kv
    by_cases hk : k = k1
    · subst hk
      simp [List.lookup] at h
      subst h
      exact List.mem_cons_self _ _
    · simp only [List.lookup, beq_eq_false_iff_ne.mpr hk] at h
      exact List.mem_cons_of_mem _ (ih h)

theorem mem_keys_of_lookup_some {α : Type} {k : String} {v : α}
    {l : List (String × α)} (h : l.lookup k = some v) :
    k ∈ l.map Prod.fst := by
  have := lookup_some_mem h
  exact List.mem_map_of_mem Prod.fst this

theorem lookup_of_nodup_mem {α : Type} {k : String} {v : α}
    {l : List (String × α)} (hnd : (l.map Prod.fst).Nodup)
    (h : (k, v) ∈ l) : l.lookup k = some v := by
  induction l with
  | nil => simp at h
  | cons kv rest ih =>
    obtain ⟨k1, v1⟩ := kv
    simp only [List.map_cons, List.nodup_cons] at hnd
    rcases List.mem_cons.mp h with h1 | h2
    · cases h1
      simp [List.lookup]
    · have hne : k ≠ k1 := by
        intro hkk
        subst hkk
        exact hnd.1 (List.mem_map_of_mem Prod.fst h2)
      simp only [List.lookup, beq_eq_false_iff_ne.mpr hne]
      exact ih hnd.2 h2

theorem lookup_tabulate (f : String → Value) (l : List String) (k : String)
    (h : k ∈ l) : (l.map (fun c => (c, f c))).lookup k = some (f k) := by
  induction l with
  | nil => simp at h
  | cons c rest ih =>
    by_cases hk : k = c
    · subst hk
      simp [List.lookup]
    · simp only [List.map_cons, List.lookup, beq_eq_false_iff_ne.mpr hk]
      exact ih (List.mem_of_ne_of_mem hk h)

/-! ## Lemmas about `dict_set`, `py_update`, `replaceTable` -/

theorem keys_dict_set_of_mem {d : Fields} {k : String} (v : Value)
    (h : k ∈ d.map Prod.fst) :
    (dict_set d k v).map Prod.fst = d.map Prod.fst := by
  have hany : d.any (fun kv => kv.1 == k) = true := by
    rcases List.mem_map.mp h with ⟨kv, hkv, hfst⟩
    exact List.any_eq_true.mpr ⟨kv, hkv, beq_iff_eq.mpr hfst⟩
  simp only [dict_set, hany, if_true, List.map_map]
  apply List.map_congr_left
  intro kv _
  by_cases hk : kv.1 == k
  · simp [hk, Function.comp, beq_iff_eq.mp hk]
  · simp [hk, Function.comp]

theorem lookup_cons_self {α : Type} {k : String} {v : α}
    {l : List (String × α)} : ((k, v) :: l).lookup k = some v := by
  simp [List.lookup]

theorem lookup_cons_ne {α : Type} {k k1 : String} {v : α}
    {l : List (String × α)} (h : k ≠ k1) :
    ((k1, v) :: l).lookup k = l.lookup k := by
  simp [List.lookup, beq_eq_false_iff_ne.mpr h]

theorem lookup_map_set_self (d : Fields) (k : String) (v : Value) :
    (d.map (fun kv => if kv.1 == k then (k, v) else kv)).lookup k
      = (d.lookup k).map (fun _ => v) := by
  induction d with
  | nil => simp [List.lookup]
  | cons kv rest ih =>
    obtain ⟨k1, v1⟩ := kv
    simp only [List.map_cons]
    by_cases hk : k1 = k
    · subst hk
      rw [if_pos (by simp : (((k1, v1)).1 == k1) = true)]
      rw [lookup_cons_self, lookup_cons_self]
      rfl
    · rw [if_neg (by simp [hk] : ¬ (((k1, v1)).1 == k) = true)]
      rw [lookup_cons_ne (Ne.symm hk), lookup_cons_ne (Ne.symm hk)]
      exact ih

theorem lookup_map_set_ne (d : Fields) {k k' : String} (v : Value)
    (h : k' ≠ k) :
    (d.map (fun kv => if kv.1 == k then (k, v) else kv)).lookup k'
      = d.lookup k' := by
  induction d with
  | nil => simp
  | cons kv rest ih =>
    obtain ⟨k1, v1⟩ := kv
    simp only [List.map_cons]
    by_cases hk : k1 = k
    · subst hk
      rw [if_pos (by simp : (((k1, v1)).1 == k1) = true)]
      rw [lookup_cons_ne h, lookup_cons_ne h]
      exact ih
    · rw [if_neg (by simp [hk] : ¬ (((k1, v1)).1 == k) = true)]
      by_cases hkk : k' = k1
      · subst hkk
        rw [lookup_cons_self, lookup_cons_self]
      · rw [lookup_cons_ne hkk, lookup_cons_ne hkk]
        exact ih

theorem any_key_iff_mem (d : Fields) (k : String) :
    (d.any (fun kv => kv.1 == k) = true) ↔ k ∈ d.map Prod.fst := by
  simp only [List.any_eq_true, List.mem_map, beq_iff_eq]

theorem lookup_isSome_of_mem_keys {d : Fields} {k : String}
    (h : k ∈ d.map Prod.fst) : ∃ v, d.lookup k = some v := by
  induction d with
  | nil => simp at h
  | cons kv rest ih =>
    obtain ⟨k1, v1⟩ := kv
    by_cases hk : k = k1
    · subst hk
      exact ⟨v1, lookup_cons_self⟩
    · simp only [List.map_cons, List.mem_cons] at h
      rcases h with h | h
      · exact absurd h hk
      · rcases ih h with ⟨v, hv⟩
        refine ⟨v, ?_⟩
        rw [lookup_cons_ne hk]
        exact hv

theorem lookup_dict_set_self (d : Fields) (k : String) (v : Value) :
    (dict_set d k v).lookup k = some v := by
  unfold dict_set
  by_cases hany : d.any (fun kv => kv.1 == k) = true
  · rw [if_pos hany, lookup_map_set_self]
    rcases lookup_isSome_of_mem_keys ((any_key_iff_mem d k).mp hany) with ⟨w, hw⟩
    simp [hw]
  · rw [if_neg hany, lookup_append]
    have hnm : k ∉ d.map Prod.fst := fun hmem => hany ((any_key_iff_mem d k).mpr hmem)
    rw [lookup_eq_none_of_not_mem hnm]
    simp [List.lookup]

theorem lookup_dict_set_ne {d : Fields} {k k' : String} (v : Value)
    (h : k' ≠ k) : (dict_set d k v).lookup k' = d.lookup k' := by
  unfold dict_set
  by_cases hany : d.any (fun kv => kv.1 == k) = true
  · rw [if_pos hany]
    exact lookup_map_set_ne d v h
  · rw [if_neg hany, lookup_append]
    cases hd : d.lookup k'
    · simp [hd, List.lookup, beq_eq_false_iff_ne.mpr h]
    · simp

theorem lookup_py_update_not_mem {e : Fields} {k : String}
    (d : Fields) (h : k ∉ e.map Prod.fst) :
    (py_update d e).lookup k = d.lookup k := by
  induction e generalizing d with
  | nil => rfl
  | cons kv rest ih =>
    obtain ⟨k1, v1⟩ := kv
    simp only [List.map_cons, List.mem_cons, not_or] at h
    simp only [py_update, List.foldl_cons]
    have := ih (dict_set d k1 v1) h.2
    simp only [py_update] at this
    rw [this, lookup_dict_set_ne v1 h.1]

theorem lookup_py_update_mem {e : Fields} {k : String} {v : Value}
    (d : Fields) (hnd : (e.map Prod.fst).Nodup) (h : (k, v) ∈ e) :
    (py_update d e).lookup k = some v := by
  induction e generalizing d with
  | nil => simp at h
  | cons kv rest ih =>
    obtain ⟨k1, v1⟩ := kv
    simp only [List.map_cons, List.nodup_cons] at hnd
    simp only [py_update, List.foldl_cons]
    rcases List.mem_cons.mp h with h1 | h2
    · cases h1
      have hnot : k ∉ rest.map Prod.fst := hnd.1
      have := lookup_py_update_not_mem (dict_set d k v) hnot
      simp only [py_update] at this
      rw [this, lookup_dict_set_self]
    · have := ih (dict_set d k1 v1) hnd.2 h2
      simp only [py_update] at this
      rw [this]

theorem keys_py_update_subset {e : Fields} {k : String}
    (d : Fields) (h : k ∈ (py_update d e).map Prod.fst) :
    k ∈ d.map Prod.fst ∨ k ∈ e.map Prod.fst := by
  by_cases he : k ∈ e.map Prod.fst
  · exact Or.inr he
  · left
    rcases lookup_isSome_of_mem_keys h with ⟨v, hv⟩
    rw [lookup_py_update_not_mem d he] at hv
    exact mem_keys_of_lookup_some hv

theorem name_of_findTable {db : Db} {table : String} {tbl : Table}
    (h : findTable db table = some tbl) : tbl.name = table := by
  have := List.find?_some h
  exact beq_iff_eq.mp this

theorem findTable_replaceTable {db : Db} {table : String} {tbl : Table}
    (t2 : Table) (h : findTable db table = some tbl) (hn : t2.name = table) :
    findTable (replaceTable db table t2) table = some t2 := by
  induction db with
  | nil => simp [findTable] at h
  | cons x rest ih =>
    by_cases hx : (x.name == table) = true
    · simp only [findTable, replaceTable, List.map_cons, if_pos hx]
      exact List.find?_cons_of_pos _ (beq_iff_eq.mpr hn)
    · simp only [findTable] at h
      rw [List.find?_cons_of_neg (p := fun t : Table => t.name == table) _ hx] at h
      simp only [findTable, replaceTable, List.map_cons, if_neg hx]
      rw [List.find?_cons_of_neg (p := fun t : Table => t.name == table) _ hx]
      exact ih h

/-! ## Placeholder counting -/

theorem count_q_append (a b : String) :
    count_q (a ++ b) = count_q a + count_q b := by
  cases a with
  | mk la =>
    cases b with
    | mk lb =>
      show (String.mk la ++ String.mk lb).data.count _ = _
      have : String.mk la ++ String.mk lb = String.mk (la ++ lb) := rfl
      rw [this]
      exact List.count_append _ _ _

theorem count_q_join_and (l : List String) :
    count_q (join_and l) = (l.map count_q).sum := by
  induction l with
  | nil => rfl
  | cons s rest ih =>
    cases rest with
    | nil => simp [join_and]
    | cons t rest2 =>
      simp only [join_and, List.map_cons, List.sum_cons]
      rw [count_q_append, count_q_append]
      have hand : count_q " and " = 0 := by decide
      rw [hand]
      simp only [join_and, List.map_cons, List.sum_cons] at ih
      omega

theorem build_vals_cons (k : String) (v : Value) (rest : Fields) :
    build_vals ((k, v) :: rest)
      = if v = Value.none then build_vals rest else v :: build_vals rest := by
  by_cases hv : v = Value.none
  · subst hv
    simp [build_vals, List.filter_cons]
  · simp [build_vals, List.filter_cons, hv]

theorem count_q_sum_clauses (ident : Fields)
    (hk : ∀ kv ∈ ident, count_q kv.1 = 0) :
    (ident.map (fun kv => count_q (comp kv.1 kv.2))).sum
      = (build_vals ident).length := by
  induction ident with
  | nil => rfl
  | cons kv rest ih =>
    obtain ⟨k, v⟩ := kv
    have hk0 : count_q k = 0 := hk (k, v) (List.mem_cons_self _ _)
    have ihr := ih (fun kv2 hkv => hk kv2 (List.mem_cons_of_mem _ hkv))
    simp only [List.map_cons, List.sum_cons, build_vals_cons]
    by_cases hv : v = Value.none
    · subst hv
      rw [if_pos rfl]
      have hc : comp k Value.none = k ++ " is null" := by simp [comp]
      rw [hc, count_q_append, hk0]
      have h1 : count_q " is null" = 0 := by decide
      rw [h1, ihr]
      omega
    · rw [if_neg hv]
      have hc : comp k v = k ++ "=?" := by simp [comp, hv]
      rw [hc, count_q_append, hk0]
      have h1 : count_q "=?" = 1 := by decide
      rw [h1, ihr]
      simp only [List.length_cons]
      omega

theorem filter_exec_map (schema : List String) :
    (schema.map Ev.exec).filter is_exec_ev = schema.map Ev.exec := by
  rw [List.filter_eq_self]
  intro a ha
  rcases List.mem_map.mp ha with ⟨s, _, rfl⟩
  rfl

theorem commit_not_mem_exec_map (schema : List String) :
    Ev.commitEv ∉ schema.map Ev.exec := by
  intro hmem
  rcases List.mem_map.mp hmem with ⟨s, _, he⟩
  cases he

/-! ## Claims -/

/-- C4: in the WHERE construction of `get_pk`, every null-valued filter
field contributes the clause `<field> is null` (no placeholder, no bound
parameter) and every non-null field contributes an
equality-with-placeholder clause; the bound-parameter list is exactly the
non-null filter values in order, and the placeholder count of the whole
WHERE text equals the number of bound parameters. -/
theorem claim_C4_null_filter_no_params (ident : Fields)
    (hk : ∀ kv ∈ ident, count_q kv.1 = 0) :
    build_vals ident
      = (ident.map Prod.snd).filter (fun v => decide (v ≠ Value.none))
    ∧ (∀ kv ∈ ident, kv.2 = Value.none →
        comp kv.1 kv.2 = kv.1 ++ " is null"
          ∧ count_q (comp kv.1 kv.2) = 0)
    ∧ (∀ kv ∈ ident, kv.2 ≠ Value.none →
        comp kv.1 kv.2 = kv.1 ++ "=?"
          ∧ count_q (comp kv.1 kv.2) = 1)
    ∧ count_q (build_where ident) = (build_vals ident).length := by
  refine ⟨rfl, ?_, ?_, ?_⟩
  · intro kv hkv h2
    have hc : comp kv.1 kv.2 = kv.1 ++ " is null" := by simp [comp, h2]
    refine ⟨hc, ?_⟩
    rw [hc, count_q_append, hk kv hkv]
    decide
  · intro kv hkv h2
    have hc : comp kv.1 kv.2 = kv.1 ++ "=?" := by simp [comp, h2]
    refine ⟨hc, ?_⟩
    rw [hc, count_q_append, hk kv hkv]
    decide
  · cases ident with
    | nil => decide
    | cons kv rest =>
      simp only [build_where, List.isEmpty_cons, Bool.false_eq_true, if_false]
      rw [count_q_append, count_q_join_and, List.map_map]
      have hw : count_q " where " = 0 := by decide
      rw [hw]
      have hs := count_q_sum_clauses (kv :: rest) hk
      simpa [Function.comp] using hs

theorem claim_C4_witness :
    count_q (build_where [("date", Value.int 2010), ("site", Value.none)])
      = (build_vals [("date", Value.int 2010), ("site", Value.none)]).length :=
  (claim_C4_null_filter_no_params _ (by decide)).2.2.2

/-- C7: a select whose execution produced rows but no column descriptors
makes `do_query` raise the descriptive malformed-table error instead of
returning data. -/
theorem claim_C7_missing_description_fails (cur : Cursor) (q : String)
    (hsel : is_select q = true) (hrows : cur.rows ≠ [])
    (hdesc : cur.description = Option.none) :
    do_query_c cur q
      = Except.error
          "Error: table defined without first field integer primary key?" := by
  have h1 : cur.rows.isEmpty = false := by
    cases h : cur.rows with
    | nil => exact absurd h hrows
    | cons a l => rfl
  simp [do_query_c, hsel, hdesc, h1]

theorem claim_C7_witness :
    do_query_c ⟨[[Value.int 1]], Option.none⟩ "select est from est"
      = Except.error
          "Error: table defined without first field integer primary key?" :=
  claim_C7_missing_description_fails _ _ (by decide) (by decide) rfl

/-- C8: opening a nonexistent filesystem target read-only fails
immediately: the error is raised with an empty driver trace, so no
connection is made and no schema statement runs. -/
theorem claim_C8_read_only_nonexistent_fails (filepath : String)
    (schema : List String) :
    get_con_cur_sqlite false filepath schema true
      = ([], Except.error
            (filepath ++ " does not exist and requested read-only")) := by
  rfl

/-- C9: opening a nonexistent target with schema statements creates the
file and applies every schema statement in order exactly once followed by
a single commit; reopening the now-existing target executes no schema
statement and no commit. -/
theorem claim_C9_schema_applied_once (filepath : String)
    (schema : List String) (ro2 : Bool) :
    get_con_cur_sqlite false filepath schema false
      = ([Ev.connect false] ++ schema.map Ev.exec ++ [Ev.commitEv],
         Except.ok true)
    ∧ (get_con_cur_sqlite false filepath schema false).1.filter is_exec_ev
        = schema.map Ev.exec
    ∧ (get_con_cur_sqlite false filepath schema false).1.count Ev.commitEv = 1
    ∧ get_con_cur_sqlite true filepath schema ro2
        = ([Ev.connect ro2], Except.ok true)
    ∧ (get_con_cur_sqlite true filepath schema ro2).1.filter is_exec_ev
        = [] := by
  refine ⟨?_, ?_, ?_, ?_, ?_⟩
  · simp [get_con_cur_sqlite]
  · simp [get_con_cur_sqlite, List.filter_append, filter_exec_map, is_exec_ev]
  · simp [get_con_cur_sqlite, List.count_append,
      List.count_eq_zero.mpr (commit_not_mem_exec_map schema), is_exec_ev]
  · simp [get_con_cur_sqlite]
  · simp [get_con_cur_sqlite, is_exec_ev]

/-- C3: identity-column resolution returns the fixed name `"id"` exactly
when a column of that name exists, else the table's own name; a cache miss
issues one probe and stores the result, and any later resolution with the
entry present returns the cached name with zero probes and an unchanged
cache, for any later store state (the cache is never invalidated). -/
theorem claim_C3_identity_resolution_cached (db : Db) (table : String)
    (tbl : Table) (cache : IdCache)
    (hfind : findTable db table = some tbl) :
    ("id" ∈ tbl.cols → get_table_id tbl = "id")
    ∧ ("id" ∉ tbl.cols → get_table_id tbl = table)
    ∧ (cache.lookup table = Option.none →
        resolve_table_id db cache table
          = Except.ok (get_table_id tbl,
              (table, get_table_id tbl) :: cache, 1))
    ∧ (∀ db2 cache2 tid, cache2.lookup table = some tid →
        resolve_table_id db2 cache2 table = Except.ok (tid, cache2, 0)) := by
  have hname := name_of_findTable hfind
  refine ⟨?_, ?_, ?_, ?_⟩
  · intro hmem
    have hany : tbl.cols.any (fun c => c == "id") = true :=
      List.any_eq_true.mpr ⟨"id", hmem, by simp⟩
    simp [get_table_id, hany]
  · intro hmem
    have hany : tbl.cols.any (fun c => c == "id") = false := by
      rw [List.any_eq_false]
      intro c hc
      simp only [beq_iff_eq]
      intro he
      subst he
      exact hmem hc
    simp [get_table_id, hany, hname]
  · intro hmiss
    simp [resolve_table_id, hmiss, hfind]
  · intro db2 cache2 tid hl
    simp [resolve_table_id, hl]

theorem claim_C3_witness :
    resolve_table_id [⟨"est", ["est", "date"], []⟩] [] "est"
      = Except.ok ("est", [("est", "est")], 1)
    ∧ resolve_table_id [] [("est", "est")] "est"
      = Except.ok ("est", [("est", "est")], 0) := by
  constructor
  · exact (claim_C3_identity_resolution_cached
      [⟨"est", ["est", "date"], []⟩] "est" _ [] rfl).2.2.1 rfl
  · exact (claim_C3_identity_resolution_cached
      [⟨"est", ["est", "date"], []⟩] "est" _ [] rfl).2.2.2 [] _ "est" rfl

/-- C6: `do_one` returns the single resulting row mapping when the select
yields exactly one row, and raises an error naming the offending query
text whenever the result has zero rows or more than one row. -/
theorem claim_C6_do_one_single_row (cur : Cursor) (q : String)
    (hsel : is_select q = true)
    (hok : cur.rows = [] ∨ cur.description ≠ Option.none) :
    (∀ r, cur.rows.map (fun row => (cur.description.getD []).zip row) = [r] →
        do_one_c cur q = Except.ok r)
    ∧ ((cur.rows.map (fun row => (cur.description.getD []).zip row)).length ≠ 1 →
        do_one_c cur q
          = Except.error (q ++ " did not produce a single record response")) := by
  have hcond : (!cur.rows.isEmpty && cur.description == Option.none) = false := by
    rcases hok with h | h
    · simp [h]
    · cases hd : cur.description with
      | none => exact absurd hd h
      | some d => simp [hd]
  have hdq : do_query_c cur q
      = Except.ok (some (cur.rows.map (fun row => (cur.description.getD []).zip row))) := by
    simp only [do_query_c, hsel, Bool.not_true, Bool.false_eq_true, if_false, hcond]
  constructor
  · intro r hr
    simp [do_one_c, hdq, hr]
  · intro hlen
    cases hrows : cur.rows.map (fun row => (cur.description.getD []).zip row) with
    | nil => simp [do_one_c, hdq, hrows]
    | cons a rest =>
      cases rest with
      | nil =>
        rw [hrows] at hlen
        simp at hlen
      | cons b rest2 => simp [do_one_c, hdq, hrows]

theorem claim_C6_witness :
    do_one_c ⟨[[Value.int 2]], some ["count"]⟩ "select count from est"
      = Except.ok [("count", Value.int 2)]
    ∧ do_one_c ⟨[[Value.int 1], [Value.int 2]], some ["est"]⟩ "select est from est"
      = Except.error
          ("select est from est" ++ " did not produce a single record response") := by
  constructor
  · exact (claim_C6_do_one_single_row _ _ (by decide)
      (Or.inr (by decide))).1 _ (by decide)
  · exact (claim_C6_do_one_single_row _ _ (by decide)
      (Or.inr (by decide))).2 (by decide)

/-- C1: `get_pk` returns `None` when zero rows match (for every flag
combination); with `multi` unset it returns the identity value (or, with
`return_obj`, the full record) directly when exactly one row matches, and
raises when more than one row matches; with `multi` set, several matching
rows are returned as the list of identity values (or of records). -/
theorem claim_C1_get_pk_multiplicity (db : Db) (table : String)
    (ident : Fields) (tbl : Table)
    (hfind : findTable db table = some tbl)
    (htid : tbl.cols.contains (get_table_id tbl) = true)
    (hkeys : ident.all (fun kv => tbl.cols.contains kv.1) = true) :
    (matching tbl ident = [] →
      ∀ ro m, get_pk db table ident ro m = Except.ok PkResult.none)
    ∧ (∀ r, matching tbl ident = [r] →
        get_pk db table ident false false
            = Except.ok (PkResult.val (rowPk (get_table_id tbl) r))
          ∧ get_pk db table ident true false
            = Except.ok (PkResult.record r))
    ∧ (1 < (matching tbl ident).length →
        (∀ ro, get_pk db table ident ro false
            = Except.error ("More than on result for " ++ table))
          ∧ get_pk db table ident false true
            = Except.ok (PkResult.vals
                ((matching tbl ident).map (rowPk (get_table_id tbl))))
          ∧ get_pk db table ident true true
            = Except.ok (PkResult.records (matching tbl ident))) := by
  have htid2 : get_table_id tbl ∈ tbl.cols := by simpa using htid
  have hkeys2 : ∀ (x : String) (y : Value), (x, y) ∈ ident → x ∈ tbl.cols := by
    intro x y hxy
    have := List.all_eq_true.mp hkeys (x, y) hxy
    simpa using this
  refine ⟨?_, ?_, ?_⟩
  · intro hm ro m
    simp [get_pk, hfind, htid2, hm]
    exact hkeys2
  · intro r hm
    refine ⟨?_, ?_⟩
    · simp [get_pk, hfind, htid2, hm]
      exact hkeys2
    · simp [get_pk, hfind, htid2, hm]
      exact hkeys2
  · intro hm
    obtain ⟨r, rs, hrs⟩ : ∃ r rs, matching tbl ident = r :: rs := by
      cases hmm : matching tbl ident with
      | nil =>
        rw [hmm] at hm
        simp at hm
      | cons a l => exact ⟨a, l, rfl⟩
    refine ⟨?_, ?_, ?_⟩
    · intro ro
      simp [get_pk, hfind, htid2, hm]
      intro x y hxy hnot
      exact absurd (hkeys2 x y hxy) hnot
    · simp [get_pk, hfind, htid2, hm, hrs]
      exact hkeys2
    · simp [get_pk, hfind, htid2, hm, hrs]
      exact hkeys2

theorem claim_C1_witness :
    get_pk [⟨"est", ["est", "date"],
        [[("est", Value.int 1), ("date", Value.int 2010)],
         [("est", Value.int 2), ("date", Value.int 2010)]]⟩]
      "est" [("date", Value.int 2010)] false false
      = Except.error ("More than on result for " ++ "est")
    ∧ get_pk [⟨"est", ["est", "date"],
        [[("est", Value.int 1), ("date", Value.int 2010)],
         [("est", Value.int 2), ("date", Value.int 2010)]]⟩]
      "est" [("date", Value.int 2010)] false true
      = Except.ok (PkResult.vals [Value.int 1, Value.int 2]) := by
  have h := claim_C1_get_pk_multiplicity
    [⟨"est", ["est", "date"],
        [[("est", Value.int 1), ("date", Value.int 2010)],
         [("est", Value.int 2), ("date", Value.int 2010)]]⟩]
    "est" [("date", Value.int 2010)] _ rfl (by decide) (by decide)
  have h3 := h.2.2 (by decide)
  exact ⟨h3.1 false, by
    have := h3.2.1
    simpa using this⟩

/-- C10: with `multi` set — and hence through `get_pks` and `get_recs` —
zero matching rows produce `None`, not an empty sequence: the `None`
result differs from every list result, so absence cannot be distinguished
from an empty list by iterating. -/
theorem claim_C10_multi_none_on_empty (db : Db) (table : String)
    (ident : Fields) (tbl : Table)
    (hfind : findTable db table = some tbl)
    (htid : tbl.cols.contains (get_table_id tbl) = true)
    (hkeys : ident.all (fun kv => tbl.cols.contains kv.1) = true)
    (hempty : matching tbl ident = []) :
    (∀ ro, get_pk db table ident ro true = Except.ok PkResult.none)
    ∧ get_pks db table (some ident) false = Except.ok PkResult.none
    ∧ get_recs db table (some ident) = Except.ok PkResult.none
    ∧ (∀ l, PkResult.none ≠ PkResult.vals l)
    ∧ (∀ l, PkResult.none ≠ PkResult.records l) := by
  have htid2 : get_table_id tbl ∈ tbl.cols := by simpa using htid
  have hkeys2 : ∀ (x : String) (y : Value), (x, y) ∈ ident → x ∈ tbl.cols := by
    intro x y hxy
    have := List.all_eq_true.mp hkeys (x, y) hxy
    simpa using this
  have hbase : ∀ ro m, get_pk db table ident ro m = Except.ok PkResult.none := by
    intro ro m
    simp [get_pk, hfind, htid2, hempty]
    exact hkeys2
  refine ⟨fun ro => hbase ro true, ?_, ?_, ?_, ?_⟩
  · exact hbase false true
  · exact hbase true true
  · intro l h
    cases h
  · intro l h
    cases h

theorem claim_C10_witness :
    get_pks [⟨"est", ["est", "date"], []⟩] "est"
        (some [("date", Value.int 2010)]) false
      = Except.ok PkResult.none
    ∧ get_recs [⟨"est", ["est", "date"], []⟩] "est"
        (some [("date", Value.int 2010)])
      = Except.ok PkResult.none := by
  have h := claim_C10_multi_none_on_empty
    [⟨"est", ["est", "date"], []⟩] "est" [("date", Value.int 2010)]
    _ rfl (by decide) (by decide) (by decide)
  exact ⟨h.2.1, h.2.2.1⟩

theorem insert_row_lookup (tbl : Table) (fields : Fields) {k : String}
    (hk : k ∈ tbl.cols) :
    (insert_row_values tbl fields).lookup k
      = some (match fields.lookup k with
              | some v =>
                if tbl.cols.head? == some k && v == Value.none then
                  Value.int (tbl.rows.length + 1)
                else v
              | Option.none =>
                if tbl.cols.head? == some k then
                  Value.int (tbl.rows.length + 1)
                else Value.none) :=
  lookup_tabulate _ _ _ hk

theorem insert_row_lookup_nonhead (tbl : Table) (fields : Fields)
    {k : String} (hk : k ∈ tbl.cols) (hne : tbl.cols.head? ≠ some k) :
    (insert_row_values tbl fields).lookup k
      = some ((fields.lookup k).getD Value.none) := by
  rw [insert_row_lookup tbl fields hk]
  have hb : (tbl.cols.head? == some k) = false := beq_eq_false_iff_ne.mpr hne
  cases hf : fields.lookup k <;> simp [hb]

theorem insert_row_lookup_head (tbl : Table) (fields : Fields)
    {k : String} (hk : k ∈ tbl.cols) (hhead : tbl.cols.head? = some k)
    (hnf : fields.lookup k = Option.none) :
    (insert_row_values tbl fields).lookup k
      = some (Value.int (tbl.rows.length + 1)) := by
  rw [insert_row_lookup tbl fields hk, hnf]
  simp [hhead]

theorem insert_row_matches (tbl : Table) (merged : Fields)
    (hnd : (merged.map Prod.fst).Nodup)
    (hcols : ∀ kv ∈ merged, kv.1 ∈ tbl.cols)
    (hnothead : ∀ kv ∈ merged, tbl.cols.head? ≠ some kv.1) :
    row_matches (insert_row_values tbl merged) merged = true := by
  rw [row_matches, List.all_eq_true]
  intro kv hkv
  rw [insert_row_lookup_nonhead tbl merged (hcols _ hkv) (hnothead _ hkv)]
  rw [lookup_of_nodup_mem hnd (by exact hkv)]
  simp

theorem row_matches_of_update {defaults ident : Fields} {r : Row}
    (hnd : (ident.map Prod.fst).Nodup)
    (h : row_matches r (py_update defaults ident) = true) :
    row_matches r ident = true := by
  rw [row_matches, List.all_eq_true] at h ⊢
  intro kv hkv
  have hl : (py_update defaults ident).lookup kv.1 = some kv.2 := by
    obtain ⟨k, v⟩ := kv
    exact lookup_py_update_mem defaults hnd hkv
  exact h _ (lookup_some_mem hl)

/-- C2: starting from a store where no row matches the filter (the
scenario in which the first call creates), calling `get_or_make_pk` twice
with the identical filter yields the same identity value both times — the
auto-assigned key of the inserted row — with the created flag `true` on
the first call and `false` on the second, and the store after the second
call is the store after the first: exactly one row was inserted.
Hypotheses: the table exists, the resolved identity column is the table's
first column (its `integer primary key`), and the filter and defaults are
dict-derived (distinct keys) naming non-identity columns, with a non-empty
merged field set (an empty one is a SQL syntax error on insert). -/
theorem claim_C2_get_or_make_idempotent (db : Db) (table : String)
    (ident defaults : Fields) (tbl : Table)
    (hfind : findTable db table = some tbl)
    (hhead : tbl.cols.head? = some (get_table_id tbl))
    (hidnd : (ident.map Prod.fst).Nodup)
    (hmnd : ((py_update defaults ident).map Prod.fst).Nodup)
    (hmne : py_update defaults ident ≠ [])
    (hmcols : ∀ kv ∈ py_update defaults ident, kv.1 ∈ tbl.cols)
    (hmnotid : ∀ kv ∈ py_update defaults ident, kv.1 ≠ get_table_id tbl)
    (hpre : ∀ r ∈ tbl.rows, row_matches r ident = false) :
    ∃ db2,
      get_or_make_pk db table ident defaults false
        = Except.ok (PkResult.val (Value.int (tbl.rows.length + 1)), true, db2)
      ∧ get_or_make_pk db2 table ident defaults false
        = Except.ok (PkResult.val (Value.int (tbl.rows.length + 1)), false, db2)
      ∧ findTable db2 table
          = some { tbl with rows := tbl.rows
              ++ [insert_row_values tbl (py_update defaults ident)] } := by
  have hname : tbl.name = table := name_of_findTable hfind
  have htidmem : get_table_id tbl ∈ tbl.cols := by
    cases hc : tbl.cols with
    | nil => rw [hc] at hhead; cases hhead
    | cons c cs =>
      rw [hc] at hhead
      simp only [List.head?_cons, Option.some.injEq] at hhead
      rw [hhead]
      exact List.mem_cons_self _ _
  have hident_lookup : ∀ kv ∈ ident,
      (py_update defaults ident).lookup kv.1 = some kv.2 := by
    intro kv hkv
    obtain ⟨k, v⟩ := kv
    exact lookup_py_update_mem defaults hidnd hkv
  have hident_mem_merged : ∀ kv ∈ ident, kv ∈ py_update defaults ident := by
    intro kv hkv
    have := lookup_some_mem (hident_lookup kv hkv)
    obtain ⟨k, v⟩ := kv
    exact this
  have hikeys : ∀ (x : String) (y : Value), (x, y) ∈ ident → x ∈ tbl.cols :=
    fun x y hxy => hmcols _ (hident_mem_merged (x, y) hxy)
  have hmkeys : ∀ (x : String) (y : Value),
      (x, y) ∈ py_update defaults ident → x ∈ tbl.cols :=
    fun x y hxy => hmcols _ hxy
  have hnothead : ∀ kv ∈ py_update defaults ident,
      tbl.cols.head? ≠ some kv.1 := by
    intro kv hkv he
    rw [hhead] at he
    exact hmnotid kv hkv (Option.some.injEq _ _ ▸ he.symm ▸ rfl)
  have hm1 : matching tbl ident = [] := by
    rw [matching, List.filter_eq_nil_iff]
    intro r hr
    simp [hpre r hr]
  have hget1 : get_pk db table ident false false = Except.ok PkResult.none := by
    simp [get_pk, hfind, htidmem, hm1]
    exact hikeys
  have hmerged_isEmpty : (py_update defaults ident).isEmpty = false := by
    cases hm : py_update defaults ident with
    | nil => exact absurd hm hmne
    | cons a l => rfl
  have hins : do_insert db table (py_update defaults ident)
      = Except.ok (replaceTable db table { tbl with rows := tbl.rows
          ++ [insert_row_values tbl (py_update defaults ident)] }) := by
    simp [do_insert, hfind, hmerged_isEmpty]
    exact hmkeys
  have hfind2 : findTable (replaceTable db table { tbl with rows := tbl.rows
      ++ [insert_row_values tbl (py_update defaults ident)] }) table
      = some { tbl with rows := tbl.rows
          ++ [insert_row_values tbl (py_update defaults ident)] } :=
    findTable_replaceTable _ hfind hname
  have hmatch_new_merged :
      row_matches (insert_row_values tbl (py_update defaults ident))
        (py_update defaults ident) = true :=
    insert_row_matches tbl _ hmnd hmcols hnothead
  have hmatch_new_ident :
      row_matches (insert_row_values tbl (py_update defaults ident))
        ident = true := by
    rw [row_matches, List.all_eq_true]
    intro kv hkv
    rw [insert_row_lookup_nonhead tbl _ (hikeys kv.1 kv.2 (by exact hkv))
      (hnothead _ (hident_mem_merged kv hkv))]
    rw [hident_lookup kv hkv]
    simp
  have hold_merged : ∀ r ∈ tbl.rows,
      row_matches r (py_update defaults ident) = false := by
    intro r hr
    cases hb : row_matches r (py_update defaults ident) with
    | false => rfl
    | true =>
      have := row_matches_of_update hidnd hb
      rw [hpre r hr] at this
      cases this
  have hm2i : matching { tbl with rows := tbl.rows
      ++ [insert_row_values tbl (py_update defaults ident)] } ident
      = [insert_row_values tbl (py_update defaults ident)] := by
    rw [matching]
    show (tbl.rows ++ [insert_row_values tbl (py_update defaults ident)]).filter
        (fun r => row_matches r ident) = _
    rw [List.filter_append]
    have h1 : tbl.rows.filter (fun r => row_matches r ident) = [] := hm1
    rw [h1]
    simp [hmatch_new_ident]
  have hm2m : matching { tbl with rows := tbl.rows
      ++ [insert_row_values tbl (py_update defaults ident)] }
      (py_update defaults ident)
      = [insert_row_values tbl (py_update defaults ident)] := by
    rw [matching]
    show (tbl.rows ++ [insert_row_values tbl (py_update defaults ident)]).filter
        (fun r => row_matches r (py_update defaults ident)) = _
    rw [List.filter_append]
    have h1 : tbl.rows.filter
        (fun r => row_matches r (py_update defaults ident)) = [] := by
      rw [List.filter_eq_nil_iff]
      intro r hr
      simp [hold_merged r hr]
    rw [h1]
    simp [hmatch_new_merged]
  have hmerged_no_id : (py_update defaults ident).lookup (get_table_id tbl)
      = Option.none := by
    apply lookup_eq_none_of_not_mem
    intro hmem
    rcases List.mem_map.mp hmem with ⟨kv, hkv, hfst⟩
    exact hmnotid kv hkv hfst
  have hnewpk : rowPk (get_table_id tbl)
      (insert_row_values tbl (py_update defaults ident))
      = Value.int (tbl.rows.length + 1) := by
    rw [rowPk, insert_row_lookup_head tbl _ htidmem hhead hmerged_no_id]
    rfl
  have htid2 : get_table_id { tbl with rows := tbl.rows
      ++ [insert_row_values tbl (py_update defaults ident)] }
      = get_table_id tbl := rfl
  have hget2 : get_pk (replaceTable db table { tbl with rows := tbl.rows
        ++ [insert_row_values tbl (py_update defaults ident)] }) table
        (py_update defaults ident) false false
      = Except.ok (PkResult.val (Value.int (tbl.rows.length + 1))) := by
    simp [get_pk, hfind2, htid2, htidmem, hm2m, hnewpk]
    exact hmkeys
  have hget3 : get_pk (replaceTable db table { tbl with rows := tbl.rows
        ++ [insert_row_values tbl (py_update defaults ident)] }) table
        ident false false
      = Except.ok (PkResult.val (Value.int (tbl.rows.length + 1))) := by
    simp [get_pk, hfind2, htid2, htidmem, hm2i, hnewpk]
    exact hikeys
  have htruthy : (PkResult.val (Value.int (tbl.rows.length + 1))).truthy
      = true := by
    simp [PkResult.truthy, Value.truthy]
    omega
  refine ⟨replaceTable db table { tbl with rows := tbl.rows
      ++ [insert_row_values tbl (py_update defaults ident)] }, ?_, ?_, hfind2⟩
  · rw [get_or_make_pk, hget1]
    simp [PkResult.truthy, hins, hget2]
  · rw [get_or_make_pk, hget3]
    simp [htruthy]

theorem claim_C2_witness :
    ∃ db2,
      get_or_make_pk [⟨"est", ["est", "site", "date", "flow"], []⟩] "est"
          [("date", Value.int 2010)] [] false
        = Except.ok (PkResult.val (Value.int 1), true, db2)
      ∧ get_or_make_pk db2 "est" [("date", Value.int 2010)] [] false
        = Except.ok (PkResult.val (Value.int 1), false, db2)
      ∧ findTable db2 "est"
          = some ⟨"est", ["est", "site", "date", "flow"],
              [[("est", Value.int 1), ("site", Value.none),
                ("date", Value.int 2010), ("flow", Value.none)]]⟩ := by
  have h := claim_C2_get_or_make_idempotent
    [⟨"est", ["est", "site", "date", "flow"], []⟩] "est"
    [("date", Value.int 2010)] [] _ rfl (by decide) (by decide) (by decide)
    (by decide) (by decide) (by decide) (by decide)
  obtain ⟨db2, h1, h2, h3⟩ := h
  exact ⟨db2, h1, h2, h3⟩

theorem lookup_filter_ne_self (l : Fields) (t : String) :
    (l.filter (fun kv => kv.1 != t)).lookup t = Option.none := by
  apply lookup_eq_none_of_not_mem
  intro hmem
  rcases List.mem_map.mp hmem with ⟨kv, hkv, hfst⟩
  have := List.of_mem_filter hkv
  rw [hfst] at this
  simp at this

theorem lookup_filter_ne_other (l : Fields) {t c : String} (h : c ≠ t) :
    (l.filter (fun kv => kv.1 != t)).lookup c = l.lookup c := by
  induction l with
  | nil => rfl
  | cons kv rest ih =>
    obtain ⟨k1, v1⟩ := kv
    by_cases hk : k1 = t
    · subst hk
      have hcne : c ≠ k1 := h
      rw [List.filter_cons_of_neg (by simp), lookup_cons_ne hcne]
      exact ih
    · rw [List.filter_cons_of_pos (by simpa using hk)]
      by_cases hck : c = k1
      · subst hck
        rw [lookup_cons_self, lookup_cons_self]
      · rw [lookup_cons_ne hck, lookup_cons_ne hck]
        exact ih

theorem apply_set_congr {r : Row} {vals1 vals2 : Fields}
    (h : ∀ cv ∈ r, vals1.lookup cv.1 = vals2.lookup cv.1) :
    apply_set r vals1 = apply_set r vals2 := by
  apply List.map_congr_left
  intro cv hcv
  rw [h cv hcv]

theorem apply_set_cons (k : String) (w : Value) (rest : Row)
    (vals : Fields) :
    apply_set ((k, w) :: rest) vals
      = (match vals.lookup k with
         | some v => (k, v)
         | Option.none => (k, w)) :: apply_set rest vals := rfl

theorem apply_set_of_same_keys (tid : String) (r r2 : Row)
    (hkeys : r.map Prod.fst = r2.map Prod.fst)
    (hnd : (r.map Prod.fst).Nodup)
    (hid : r.lookup tid = r2.lookup tid) :
    apply_set r (r2.filter (fun kv => kv.1 != tid)) = r2 := by
  induction r generalizing r2 with
  | nil =>
    cases r2 with
    | nil => rfl
    | cons kv t => cases hkeys
  | cons kv rest ih =>
    obtain ⟨k, w⟩ := kv
    cases r2 with
    | nil => cases hkeys
    | cons kv2 rest2 =>
      obtain ⟨k2, w2⟩ := kv2
      simp only [List.map_cons, List.cons.injEq] at hkeys
      obtain ⟨hk2, hkeys_t⟩ := hkeys
      subst hk2
      simp only [List.map_cons, List.nodup_cons] at hnd
      obtain ⟨hknotin, hnd_t⟩ := hnd
      by_cases hkt : k = tid
      · subst hkt
        rw [lookup_cons_self, lookup_cons_self] at hid
        injection hid with hw
        subst hw
        rw [List.filter_cons_of_neg (by simp)]
        rw [apply_set_cons, lookup_filter_ne_self]
        have hrk : rest.lookup k = Option.none :=
          lookup_eq_none_of_not_mem hknotin
        have hr2k : rest2.lookup k = Option.none :=
          lookup_eq_none_of_not_mem (hkeys_t ▸ hknotin)
        rw [ih rest2 hkeys_t hnd_t (hrk.trans hr2k.symm)]
      · have htk : tid ≠ k := fun he => hkt he.symm
        rw [lookup_cons_ne htk, lookup_cons_ne htk] at hid
        rw [List.filter_cons_of_pos (by simpa using hkt)]
        rw [apply_set_cons, lookup_cons_self]
        have hcongr : apply_set rest ((k, w2) :: rest2.filter (fun kv => kv.1 != tid))
            = apply_set rest (rest2.filter (fun kv => kv.1 != tid)) := by
          apply apply_set_congr
          intro cv hcv
          have hcvne : cv.1 ≠ k := by
            intro he
            exact hknotin (he ▸ List.mem_map_of_mem Prod.fst hcv)
          rw [lookup_cons_ne hcvne]
        rw [hcongr, ih rest2 hkeys_t hnd_t hid]

theorem row_matches_singleton (r : Row) (t : String) (v : Value) :
    row_matches r [(t, v)] = (r.lookup t == some v) := by
  simp [row_matches]

/-- C5: after reading the unique record matching a filter, mutating one
non-identity field and saving it (legacy convention: no table argument,
the first field names table and identity column), re-reading by identity
returns the mutated record: the changed field has the new value and every
other field is unchanged.  `save_rec` writes every field except the
identity field, keyed on the identity value. -/
theorem claim_C5_save_rec_roundtrip (db : Db) (table : String)
    (ident : Fields) (tbl : Table) (pre post : List Row) (r0 : Row)
    (f : String) (v2 : Value) (n : Int)
    (hfind : findTable db table = some tbl)
    (hcolsnd : tbl.cols.Nodup)
    (hhead : tbl.cols.head? = some table)
    (htid : get_table_id tbl = table)
    (hsplit : tbl.rows = pre ++ r0 :: post)
    (hr0keys : r0.map Prod.fst = tbl.cols)
    (hr0pk : r0.lookup table = some (Value.int n))
    (hr0match : row_matches r0 ident = true)
    (hother_id : ∀ r, r ∈ pre ∨ r ∈ post → row_matches r ident = false)
    (hother_pk : ∀ r, r ∈ pre ∨ r ∈ post →
        r.lookup table ≠ some (Value.int n))
    (hikeys : ∀ (x : String) (y : Value), (x, y) ∈ ident → x ∈ tbl.cols)
    (hf : f ∈ tbl.cols) (hfT : f ≠ table) :
    ∃ db2,
      get_rec db table ident = Except.ok (PkResult.record r0)
      ∧ save_rec db (dict_set r0 f v2) Option.none = Except.ok db2
      ∧ get_rec db2 table [(table, Value.int n)]
          = Except.ok (PkResult.record (dict_set r0 f v2))
      ∧ (dict_set r0 f v2).lookup f = some v2
      ∧ (∀ g, g ≠ f → (dict_set r0 f v2).lookup g = r0.lookup g) := by
  have hname : tbl.name = table := name_of_findTable hfind
  obtain ⟨cs, hcols⟩ : ∃ cs, tbl.cols = table :: cs := by
    cases hc : tbl.cols with
    | nil =>
      rw [hc] at hhead
      cases hhead
    | cons c cs2 =>
      rw [hc] at hhead
      simp only [List.head?_cons, Option.some.injEq] at hhead
      exact ⟨cs2, by rw [hhead]⟩
  have hTmem : table ∈ tbl.cols := by
    rw [hcols]
    exact List.mem_cons_self _ _
  have hmatch1 : matching tbl ident = [r0] := by
    rw [matching, hsplit, List.filter_append]
    have h1 : pre.filter (fun r => row_matches r ident) = [] := by
      rw [List.filter_eq_nil_iff]
      intro r hr
      simp [hother_id r (Or.inl hr)]
    have h3 : post.filter (fun r => row_matches r ident) = [] := by
      rw [List.filter_eq_nil_iff]
      intro r hr
      simp [hother_id r (Or.inr hr)]
    rw [h1, List.filter_cons_of_pos (by simpa using hr0match), h3]
    rfl
  have hget1 : get_rec db table ident = Except.ok (PkResult.record r0) := by
    simp [get_rec, get_pk, hfind, htid, hTmem, hmatch1]
    exact hikeys
  set r2 := dict_set r0 f v2 with hr2def
  have hfmem0 : f ∈ r0.map Prod.fst := by
    rw [hr0keys]
    exact hf
  have hr2keys : r2.map Prod.fst = tbl.cols := by
    rw [hr2def, keys_dict_set_of_mem v2 hfmem0]
    exact hr0keys
  have hr2pk : r2.lookup table = some (Value.int n) := by
    rw [hr2def, lookup_dict_set_ne v2 (Ne.symm hfT)]
    exact hr0pk
  obtain ⟨x, rtail, hshape⟩ : ∃ x rtail, r2 = (table, x) :: rtail := by
    cases hr2c : r2 with
    | nil =>
      rw [hr2c, hcols] at hr2keys
      cases hr2keys
    | cons kv t =>
      obtain ⟨a, b⟩ := kv
      rw [hr2c, hcols] at hr2keys
      simp only [List.map_cons, List.cons.injEq] at hr2keys
      exact ⟨b, t, by rw [hr2keys.1]⟩
  have hx : x = Value.int n := by
    rw [hshape, lookup_cons_self] at hr2pk
    exact Option.some.inj hr2pk
  subst hx
  have hfilter : r2.filter (fun kv => kv.1 != table)
      = rtail.filter (fun kv => kv.1 != table) := by
    rw [hshape, List.filter_cons_of_neg (by simp)]
  have hfv : r2.lookup f = some v2 := by
    rw [hr2def]
    exact lookup_dict_set_self r0 f v2
  have hfpair : (f, v2) ∈ r2.filter (fun kv => kv.1 != table) :=
    List.mem_filter.mpr ⟨lookup_some_mem hfv, by simpa using hfT⟩
  have hvempty : (rtail.filter (fun kv => kv.1 != table)).isEmpty = false := by
    rw [← hfilter]
    cases hv : r2.filter (fun kv => kv.1 != table) with
    | nil =>
      rw [hv] at hfpair
      cases hfpair
    | cons a l => rfl
  have hvkeys : ∀ (y : String) (w : Value),
      (y, w) ∈ rtail.filter (fun kv => kv.1 != table) → y ∈ tbl.cols := by
    intro y w hyw
    rw [← hfilter] at hyw
    have hmem2 : (y, w) ∈ r2 := List.mem_of_mem_filter hyw
    have : y ∈ r2.map Prod.fst := List.mem_map_of_mem Prod.fst hmem2
    rw [hr2keys] at this
    exact this
  have happly : apply_set r0 (r2.filter (fun kv => kv.1 != table)) = r2 :=
    apply_set_of_same_keys table r0 r2
      (hr0keys.trans hr2keys.symm) (hr0keys ▸ hcolsnd)
      (hr0pk.trans hr2pk.symm)
  have hrows2 : tbl.rows.map (fun r =>
        if r.lookup table == some (Value.int n) then
          apply_set r (rtail.filter (fun kv => kv.1 != table))
        else r)
      = pre ++ r2 :: post := by
    rw [hsplit, List.map_append, List.map_cons]
    have hpre : pre.map (fun r =>
        if r.lookup table == some (Value.int n) then
          apply_set r (rtail.filter (fun kv => kv.1 != table))
        else r) = pre := by
      have hcongr : ∀ r ∈ pre, (if r.lookup table == some (Value.int n) then
          apply_set r (rtail.filter (fun kv => kv.1 != table))
          else r) = id r := by
        intro r hr
        rw [if_neg (by simpa using hother_pk r (Or.inl hr))]
        rfl
      rw [List.map_congr_left hcongr, List.map_id]
    have hpost : post.map (fun r =>
        if r.lookup table == some (Value.int n) then
          apply_set r (rtail.filter (fun kv => kv.1 != table))
        else r) = post := by
      have hcongr : ∀ r ∈ post, (if r.lookup table == some (Value.int n) then
          apply_set r (rtail.filter (fun kv => kv.1 != table))
          else r) = id r := by
        intro r hr
        rw [if_neg (by simpa using hother_pk r (Or.inr hr))]
        rfl
      rw [List.map_congr_left hcongr, List.map_id]
    rw [hpre, hpost, if_pos (by simpa using hr0pk)]
    rw [← hfilter, happly]
  have hsave : save_rec db r2 Option.none
      = Except.ok (replaceTable db table { tbl with rows := tbl.rows.map (fun r =>
          if r.lookup table == some (Value.int n) then
            apply_set r (rtail.filter (fun kv => kv.1 != table))
          else r) }) := by
    have hfc : (((table, Value.int n) :: rtail)).filter (fun kv => kv.1 != table)
        = rtail.filter (fun kv => kv.1 != table) :=
      List.filter_cons_of_neg (by simp)
    rw [hshape]
    simp only [save_rec, lookup_cons_self, hfc]
    rw [hfind]
    simp [hvempty]
    constructor
    · intro a b hab
      by_cases ha : a = table
      · exact Or.inl ha
      · exact Or.inr (hvkeys a b (List.mem_filter.mpr ⟨hab, by simpa using ha⟩))
    · exact hTmem
  have hfind2 : findTable (replaceTable db table { tbl with
        rows := pre ++ r2 :: post }) table
      = some { tbl with rows := pre ++ r2 :: post } :=
    findTable_replaceTable _ hfind hname
  have hmatch2 : matching { tbl with rows := pre ++ r2 :: post }
      [(table, Value.int n)] = [r2] := by
    rw [matching]
    show (pre ++ r2 :: post).filter
        (fun r => row_matches r [(table, Value.int n)]) = [r2]
    rw [List.filter_append]
    have h1 : pre.filter (fun r => row_matches r [(table, Value.int n)])
        = [] := by
      rw [List.filter_eq_nil_iff]
      intro r hr
      rw [row_matches_singleton]
      simpa using hother_pk r (Or.inl hr)
    have h3 : post.filter (fun r => row_matches r [(table, Value.int n)])
        = [] := by
      rw [List.filter_eq_nil_iff]
      intro r hr
      rw [row_matches_singleton]
      simpa using hother_pk r (Or.inr hr)
    rw [h1, List.filter_cons_of_pos (by rw [row_matches_singleton]; simpa using hr2pk), h3]
    rfl
  have hget2 : get_rec (replaceTable db table { tbl with
        rows := pre ++ r2 :: post }) table [(table, Value.int n)]
      = Except.ok (PkResult.record r2) := by
    have htid2 : get_table_id { tbl with rows := pre ++ r2 :: post }
        = table := htid
    simp [get_rec, get_pk, hfind2, htid2, hTmem, hmatch2]
  refine ⟨replaceTable db table { tbl with rows := pre ++ r2 :: post },
    hget1, ?_, hget2, hfv, fun g hg => lookup_dict_set_ne v2 hg⟩
  rw [hsave, hrows2]

theorem claim_C5_witness :
    ∃ db2,
      get_rec [⟨"est", ["est", "site", "date", "flow"],
          [[("est", Value.int 1), ("site", Value.none),
            ("date", Value.int 2010), ("flow", Value.none)]]⟩]
        "est" [("date", Value.int 2010)]
        = Except.ok (PkResult.record
            [("est", Value.int 1), ("site", Value.none),
             ("date", Value.int 2010), ("flow", Value.none)])
      ∧ save_rec [⟨"est", ["est", "site", "date", "flow"],
          [[("est", Value.int 1), ("site", Value.none),
            ("date", Value.int 2010), ("flow", Value.none)]]⟩]
          (dict_set [("est", Value.int 1), ("site", Value.none),
            ("date", Value.int 2010), ("flow", Value.none)]
            "site" (Value.int 123)) Option.none
        = Except.ok db2
      ∧ get_rec db2 "est" [("est", Value.int 1)]
          = Except.ok (PkResult.record
              (dict_set [("est", Value.int 1), ("site", Value.none),
                ("date", Value.int 2010), ("flow", Value.none)]
                "site" (Value.int 123)))
      ∧ (dict_set [("est", Value.int 1), ("site", Value.none),
            ("date", Value.int 2010), ("flow", Value.none)]
            "site" (Value.int 123)).lookup "site" = some (Value.int 123)
      ∧ (∀ g, g ≠ "site" →
          (dict_set [("est", Value.int 1), ("site", Value.none),
            ("date", Value.int 2010), ("flow", Value.none)]
            "site" (Value.int 123)).lookup g
          = [("est", Value.int 1), ("site", Value.none),
             ("date", Value.int 2010), ("flow", Value.none)].lookup g) := by
  have h := claim_C5_save_rec_roundtrip
    [⟨"est", ["est", "site", "date", "flow"],
        [[("est", Value.int 1), ("site", Value.none),
          ("date", Value.int 2010), ("flow", Value.none)]]⟩]
    "est" [("date", Value.int 2010)] _ [] []
    [("est", Value.int 1), ("site", Value.none),
     ("date", Value.int 2010), ("flow", Value.none)]
    "site" (Value.int 123) 1
    rfl (by decide) rfl rfl rfl (by decide) (by decide) (by decide)
    (by
      intro r hr
      rcases hr with h2 | h2 <;> exact absurd h2 (List.not_mem_nil r))
    (by
      intro r hr
      rcases hr with h2 | h2 <;> exact absurd h2 (List.not_mem_nil r))
    (by
      intro x y hxy
      simp only [List.mem_singleton, Prod.mk.injEq] at hxy
      rw [hxy.1]
      decide)
    (by decide) (by decide)
  obtain ⟨db2, a, b, c, d, e⟩ := h
  exact ⟨db2, a, b, c, d, e⟩
